import Mathlib

/-!
Verification development for the ttn-redis-converter core
(`src/ttn-redis-converter/app.py`): a shallow embedding of the binary
payload decoder, the per-node configuration-regeneration state machine,
the configuration key/value compactor and the message emitter, together
with theorems about them.

Conventions of the embedding:
* the MSB-first bit stream of `bitstring.ConstBitStream` is a `List Bool`;
  a read consumes a prefix and returns the rest, failing with `none`
  when too few bits remain (the library's `ReadError`);
* Python dicts used as configuration descriptors are association lists
  preserving insertion order; the float literal `2.5` is represented
  exactly as the rational `5/2`;
* the external CBOR and base64 serializers (libraries `cbor2`/`base64`,
  outside this repository) are parameters of the emitter.
-/

namespace TTNConv

/-- Value of a big-endian (MSB-first) bit list as an unsigned integer. -/
def bitsToNat (l : List Bool) : Nat :=
  l.foldl (fun a b => 2 * a + (if b then 1 else 0)) 0

/-- The 8 bits of a byte, most significant first. -/
def byteToBits (b : Nat) : List Bool :=
  [b.testBit 7, b.testBit 6, b.testBit 5, b.testBit 4,
   b.testBit 3, b.testBit 2, b.testBit 1, b.testBit 0]

/-- The bit stream of a byte payload (`bitstring.ConstBitStream(bytes=payload)`). -/
def payloadBits (p : List Nat) : List Bool :=
  (p.map byteToBits).flatten

/-- `stream.read("bool")`. -/
def readBool (s : List Bool) : Option (Bool × List Bool) :=
  match s with
  | [] => none
  | b :: rest => some (b, rest)

/-- `stream.read("uint:n")`: `n` MSB-first bits as an unsigned integer. -/
def readUInt (n : Nat) (s : List Bool) : Option (Nat × List Bool) :=
  if n ≤ s.length then some (bitsToNat (s.take n), s.drop n) else none

/-- Two's-complement interpretation of an `n`-bit MSB-first bit list. -/
def sIntOfBits (n : Nat) (l : List Bool) : Int :=
  let u := bitsToNat l
  if u < 2 ^ (n - 1) then (u : Int) else (u : Int) - 2 ^ n

/-- `stream.read("int:n")`: `n` MSB-first bits as a two's-complement signed integer. -/
def readSInt (n : Nat) (s : List Bool) : Option (Int × List Bool) :=
  if n ≤ s.length then some (sIntOfBits n (s.take n), s.drop n) else none

/-- Keys of a configuration descriptor: a string before compaction,
or an integer catalog code after. -/
inductive CKey where
  | str (s : String)
  | num (n : Nat)
deriving DecidableEq

/-- Values of a configuration descriptor field. -/
inductive CVal where
  | str (s : String)
  | int (n : Int)
  | rat (q : ℚ)
deriving DecidableEq

/-- A Python dict used as a configuration descriptor: an association
list preserving insertion order. -/
abbrev Obj := List (CKey × CVal)

/-- Lookup of a key in a descriptor (first occurrence). -/
def objLookup (o : Obj) (k : CKey) : Option CVal :=
  (o.find? (fun kv => kv.1 == k)).map (·.2)

/-- `CONFIG_PACKET_KEYS` (app.py lines 23-31). -/
def CONFIG_PACKET_KEYS : List (Nat × String) :=
  [(1, "channel_id"), (2, "quantity"), (3, "unit"), (4, "sensor"),
   (5, "item_type"), (6, "measured"), (7, "divider")]

/-- `CONFIG_PACKET_VALUES` (app.py lines 34-54).  Note the spelling
`degrees_celcius` in the `unit` table. -/
def CONFIG_PACKET_VALUES : List (String × List (Nat × String)) :=
  [("quantity",
    [(1, "temperature"), (2, "humidity"), (3, "voltage"),
     (4, "ambient_light"), (5, "particulate_matter"), (6, "position")]),
   ("unit",
    [(1, "degrees_celcius"), (2, "percent_rh"), (3, "volt"),
     (4, "ug_per_cubic_meter"), (5, "lux"), (6, "degrees")]),
   ("sensor", [(1, "Si2701")]),
   ("item_type", [(1, "node"), (2, "channel")])]

/-- Dict comprehension `{v: k for k, v in ...}`. -/
def invertTable (t : List (Nat × String)) : List (String × Nat) :=
  t.map (fun p => (p.2, p.1))

/-- `CONFIG_PACKET_KEYS_INVERTED` (app.py line 56). -/
def CONFIG_PACKET_KEYS_INVERTED : List (String × Nat) :=
  invertTable CONFIG_PACKET_KEYS

/-- `CONFIG_PACKET_VALUES_INVERTED` (app.py lines 57-60). -/
def CONFIG_PACKET_VALUES_INVERTED : List (String × List (String × Nat)) :=
  CONFIG_PACKET_VALUES.map (fun p => (p.1, invertTable p.2))

/-- Lookup in an inverted table (Python `dict[key]` with `KeyError` as `none`). -/
def tableLookup (t : List (String × Nat)) (k : String) : Option Nat :=
  (t.find? (fun p => p.1 == k)).map (·.2)

/-- `values.get(key, False)` followed by `values_for_this_key[value]`:
`none` when either lookup misses. -/
def valuesLookup (vals : List (String × List (String × Nat))) (k v : String) :
    Option Nat :=
  match vals.find? (fun p => p.1 == k) with
  | none => none
  | some p => tableLookup p.2 v

/-- `encode_cbor_obj` (app.py lines 63-83): best-effort replacement of
string values by their catalog code (only when the key is a string with
a value table), then of string keys by their code; unknown keys/values
pass through unchanged. -/
def encode_cbor_obj (obj : Obj) (keys : List (String × Nat))
    (values : List (String × List (String × Nat))) : Obj :=
  obj.map fun kv =>
    let v := match kv.2, kv.1 with
      | CVal.str vs, CKey.str ks =>
        match valuesLookup values ks vs with
        | some code => CVal.int code
        | none => CVal.str vs
      | v, _ => v
    let k := match kv.1 with
      | CKey.str ks =>
        match tableLookup keys ks with
        | some code => CKey.num code
        | none => CKey.str ks
      | k => k
    (k, v)

/-- `node_config` initial value (app.py line 98). -/
def node_config : Obj := [(.str "item_type", .str "node")]

/-- Position channel descriptor (app.py lines 101-107). -/
def position_config : Obj :=
  [(.str "item_type", .str "channel"), (.str "channel_id", .int 0),
   (.str "quantity", .str "position"), (.str "unit", .str "degrees"),
   (.str "divider", .int 32768)]

/-- Temperature channel descriptor (app.py lines 108-114).  Note the
spelling `degrees_celsius`, different from the value catalog. -/
def temperature_config : Obj :=
  [(.str "item_type", .str "channel"), (.str "channel_id", .int 1),
   (.str "quantity", .str "temperature"), (.str "unit", .str "degrees_celsius"),
   (.str "divider", .int 16)]

/-- Humidity channel descriptor (app.py lines 115-121). -/
def humidity_config : Obj :=
  [(.str "item_type", .str "channel"), (.str "channel_id", .int 2),
   (.str "quantity", .str "humidity"), (.str "unit", .str "percent_rh"),
   (.str "divider", .int 16)]

/-- `vcc_config` (app.py lines 123-131). -/
def vcc_config : Obj :=
  [(.str "item_type", .str "channel"), (.str "channel_id", .int 3),
   (.str "quantity", .str "voltage"), (.str "unit", .str "volt"),
   (.str "measured", .str "supply"), (.str "divider", .int 100),
   (.str "offset", .int 1)]

/-- `battery_config` (app.py lines 132-140). -/
def battery_config : Obj :=
  [(.str "item_type", .str "channel"), (.str "channel_id", .int 4),
   (.str "quantity", .str "voltage"), (.str "unit", .str "volt"),
   (.str "measured", .str "battery"), (.str "divider", .int 50),
   (.str "offset", .int 1)]

/-- `lux_config` (app.py lines 141-146).  It has no `divider` entry;
port 13 appends one (line 244), modelled by `luxDesc`. -/
def lux_config : Obj :=
  [(.str "item_type", .str "channel"), (.str "channel_id", .int 5),
   (.str "quantity", .str "ambient_light"), (.str "unit", .str "lux")]

/-- `pm25_config` (app.py lines 147-153); the float `2.5` is the exact
rational `5/2`. -/
def pm25_config : Obj :=
  [(.str "item_type", .str "channel"), (.str "channel_id", .int 6),
   (.str "quantity", .str "particulate_matter"),
   (.str "unit", .str "ug_per_cubic_meter"),
   (.str "measured:size", .rat (5 / 2))]

/-- `pm10_config` (app.py lines 154-160). -/
def pm10_config : Obj :=
  [(.str "item_type", .str "channel"), (.str "channel_id", .int 7),
   (.str "quantity", .str "particulate_matter"),
   (.str "unit", .str "ug_per_cubic_meter"),
   (.str "measured:size", .int 10)]

/-- `extra_config` (app.py lines 162-165). -/
def extra_config : Obj :=
  [(.str "item_type", .str "channel"), (.str "channel_id", .int 8)]

/-- The presence flags of a packet (app.py lines 171-176), plus
`lux_div4` modelling the in-place mutation `lux_config["divider"] = 4`
performed by the port-13 branch (line 244). -/
structure Flags where
  have_supply : Bool := false
  have_battery : Bool := false
  have_firmware : Bool := false
  have_lux : Bool := false
  have_pm : Bool := false
  have_extra : Bool := false
  lux_div4 : Bool := false
deriving DecidableEq

/-- Outcome of the port/length dispatch (app.py lines 177-247): an early
`return` for an unknown port or invalid length, a stream read failure
while reading the port-13 flag byte, or the selected flags together with
the remaining stream. -/
inductive DispatchR where
  | invalid
  | overrun
  | ok (f : Flags) (rest : List Bool)
deriving DecidableEq

/-- The port-13 flag byte (app.py lines 234-244): `have_lux`, `have_pm`,
`have_battery` as booleans, 4 unused bits, then `have_extra`.  The
branch also sets `have_firmware`/`have_supply` and the lux divider. -/
def readFlags13 (s : List Bool) : Option (Flags × List Bool) :=
  match readBool s with
  | none => none
  | some (hl, s) =>
    match readBool s with
    | none => none
    | some (hp, s) =>
      match readBool s with
      | none => none
      | some (hb, s) =>
        match readUInt 4 s with
        | none => none
        | some (_, s) =>
          match readBool s with
          | none => none
          | some (he, s) =>
            some ({ have_supply := true, have_battery := hb,
                    have_firmware := true, have_lux := hl, have_pm := hp,
                    have_extra := he, lux_div4 := true }, s)

/-- Port/length dispatch (app.py lines 177-247). -/
def dispatch (port length : Nat) (s : List Bool) : DispatchR :=
  if port = 10 then
    if length = 9 then .ok {} s
    else if length = 10 then .ok { have_supply := true } s
    else if length = 11 then .ok { have_supply := true, have_battery := true } s
    else .invalid
  else if port = 11 then
    if length = 11 then .ok { have_supply := true, have_firmware := true } s
    else if length = 12 then
      .ok { have_supply := true, have_battery := true, have_firmware := true } s
    else if length = 15 then
      .ok { have_supply := true, have_firmware := true, have_pm := true } s
    else if length = 16 then
      .ok { have_supply := true, have_battery := true, have_firmware := true,
            have_pm := true } s
    else .invalid
  else if port = 12 then
    if length = 13 then
      .ok { have_supply := true, have_firmware := true, have_lux := true } s
    else if length = 14 then
      .ok { have_supply := true, have_battery := true, have_firmware := true,
            have_lux := true } s
    else if length = 17 then
      .ok { have_supply := true, have_firmware := true, have_lux := true,
            have_pm := true } s
    else if length = 18 then
      .ok { have_supply := true, have_battery := true, have_firmware := true,
            have_lux := true, have_pm := true } s
    else .invalid
  else if port = 13 then
    match readFlags13 s with
    | none => .overrun
    | some (f, s) => .ok f s
  else .invalid

/-- One pass of the extra-value loop (app.py lines 285-297), with a
structural fuel argument: read a 5-bit size field, add 1, read that many
bits as an unsigned value; stop when fewer than 5 bits remain, or when
fewer bits than announced remain (trailing pad from byte alignment). -/
def readExtraGo : Nat → List Bool → List Nat
  | 0, _ => []
  | fuel + 1, s =>
    if s.length < 5 then []
    else if (s.drop 5).length < bitsToNat (s.take 5) + 1 then []
    else
      bitsToNat ((s.drop 5).take (bitsToNat (s.take 5) + 1))
        :: readExtraGo fuel ((s.drop 5).drop (bitsToNat (s.take 5) + 1))

/-- The extra-value loop: every iteration consumes at least six bits, so
`s.length` units of fuel are never exhausted (`readExtraGo_congr` below
shows the result is fuel-independent past that bound). -/
def readExtra (s : List Bool) : List Nat :=
  readExtraGo s.length s

/-- A decoded channel reading's value: a signed/unsigned integer, the
position pair, or the extra-value sequence. -/
inductive RValue where
  | int (v : Int)
  | pair (a b : Int)
  | list (vs : List Nat)
deriving DecidableEq

/-- One element of the `data` list: `{"channel_id": ..., "value": ...}`. -/
structure Reading where
  channel_id : Nat
  value : RValue
deriving DecidableEq

/-- Accumulator for the field-extraction phase: the `config` and `data`
lists under construction and the remaining bit stream. -/
structure DecSt where
  config : List Obj
  data : List Reading
  s : List Bool
deriving DecidableEq

/-- Firmware version read (app.py lines 249-250): appends
`firmware_version` to the node descriptor when present. -/
def readFirmware (f : Flags) (s : List Bool) : Option (Obj × List Bool) :=
  if f.have_firmware then
    (readUInt 8 s).map fun p =>
      (node_config ++ [(.str "firmware_version", .int p.1)], p.2)
  else some (node_config, s)

/-- The unconditional position/temperature/humidity reads
(app.py lines 252-261). -/
def baseFields (s : List Bool) : Option (List Reading × List Bool) :=
  match readSInt 24 s with
  | none => none
  | some (p1, s) =>
    match readSInt 24 s with
    | none => none
    | some (p2, s) =>
      match readSInt 12 s with
      | none => none
      | some (t, s) =>
        match readSInt 12 s with
        | none => none
        | some (h, s) =>
          some ([⟨0, .pair p1 p2⟩, ⟨1, .int t⟩, ⟨2, .int h⟩], s)

/-- One optional single-value segment (the
`if have_X: config.append(...); data.append(...)` pattern of
app.py lines 263-269 and 277-279). -/
def optSeg (present : Bool) (cfgD : Obj) (cid n : Nat) (st : DecSt) :
    Option DecSt :=
  if present then
    match readUInt n st.s with
    | none => none
    | some (v, s) => some ⟨st.config ++ [cfgD], st.data ++ [⟨cid, .int v⟩], s⟩
  else some st

/-- The particulate-matter segment (app.py lines 271-275): PM2.5 then
PM10, each a 16-bit unsigned value. -/
def pmSeg (present : Bool) (st : DecSt) : Option DecSt :=
  if present then
    match readUInt 16 st.s with
    | none => none
    | some (v25, s) =>
      match readUInt 16 s with
      | none => none
      | some (v10, s) =>
        some ⟨st.config ++ [pm25_config, pm10_config],
              st.data ++ [⟨6, .int v25⟩, ⟨7, .int v10⟩], s⟩
  else some st

/-- The extra-values segment (app.py lines 281-300): always appends the
channel-8 descriptor and a channel-8 reading when the flag is set, with
whatever list the loop decoded (possibly empty). -/
def extraSeg (present : Bool) (st : DecSt) : DecSt :=
  if present then
    ⟨st.config ++ [extra_config], st.data ++ [⟨8, .list (readExtra st.s)⟩], st.s⟩
  else st

/-- The lux descriptor actually appended: `lux_config`, with the
`divider: 4` entry appended for the port-13 variant (app.py line 244). -/
def luxDesc (f : Flags) : Obj :=
  if f.lux_div4 then lux_config ++ [(.str "divider", .int 4)] else lux_config

/-- Field extraction (app.py lines 249-300): from the selected flags and
the remaining stream, the `config` descriptor list and the `data`
reading list; `none` on stream exhaustion mid-field. -/
def extract (f : Flags) (s : List Bool) : Option (List Obj × List Reading) :=
  match readFirmware f s with
  | none => none
  | some (ncfg, s) =>
    match baseFields s with
    | none => none
    | some (base, s) =>
      match optSeg f.have_supply vcc_config 3 8
          ⟨[ncfg, position_config, temperature_config, humidity_config], base, s⟩ with
      | none => none
      | some st =>
        match optSeg f.have_lux (luxDesc f) 5 16 st with
        | none => none
        | some st =>
          match pmSeg f.have_pm st with
          | none => none
          | some st =>
            match optSeg f.have_battery battery_config 4 8 st with
            | none => none
            | some st =>
              let st := extraSeg f.have_extra st
              some (st.config, st.data)

/-- An inbound/outbound envelope.  `others` models any further JSON
fields of the message object, which the converter never touches. -/
structure Envelope where
  app_id : String
  dev_id : String
  counter : Nat
  port : Nat
  payload_raw : String
  others : List (String × String)
deriving DecidableEq

/-- `make_ttn_node_id` (app.py lines 87-88). -/
def make_ttn_node_id (msg : Envelope) : String :=
  "ttn/" ++ msg.app_id ++ "/" ++ msg.dev_id

/-- The `last_counter_seen` mapping from node id to last frame counter. -/
abbrev CounterState := List (String × Nat)

/-- Dict lookup in the counter state. -/
def cLookup (st : CounterState) (k : String) : Option Nat :=
  (st.find? (fun p => p.1 == k)).map (·.2)

/-- Dict assignment `last_counter_seen[node_id] = msg_counter`. -/
def cUpdate (st : CounterState) (k : String) (v : Nat) : CounterState :=
  match st with
  | [] => [(k, v)]
  | (k', v') :: rest =>
    if k' == k then (k, v) :: rest else (k', v') :: cUpdate rest k v

/-- The configuration-regeneration decision (app.py lines 305-312):
regenerate when no counter is recorded for the node (`KeyError`) or
when the recorded counter is strictly greater than the new one. -/
def generate_config (st : CounterState) (node_id : String) (msg_counter : Nat) :
    Bool :=
  match cLookup st node_id with
  | none => true
  | some last_counter => last_counter > msg_counter

/-- `CONFIG_PORT` (app.py line 19). -/
def CONFIG_PORT : Nat := 1

/-- `DATA_PORT` (app.py line 20). -/
def DATA_PORT : Nat := 2

/-- The payload handed to `produce_message`: a configuration descriptor
list or a data reading list. -/
inductive MsgPayload where
  | cfg (c : List Obj)
  | dat (d : List Reading)

/-- `produce_message` (app.py lines 332-340): overwrite the envelope's
port, serialize the payload with the external CBOR encoder `dumps`,
base64-encode it with the external `b64`, and store it in
`payload_raw`.  The external serializers are parameters. -/
def produce_message (dumps : MsgPayload → List Nat) (b64 : List Nat → String)
    (msg : Envelope) (payload : MsgPayload) (port : Nat) : Envelope :=
  { msg with port := port, payload_raw := b64 (dumps payload) }

/-- One yielded message, tagged by the call site that produced it
(config at app.py line 326, data at line 329) and enriched with the
pre-serialization payload. -/
inductive OutMsg where
  | cfgMsg (env : Envelope) (payload : List Obj)
  | datMsg (env : Envelope) (payload : List Reading)

/-- Observable outcome of `process_data`: an early `return` (unknown
port / invalid length), a stream read failure, or the list of yielded
messages. -/
inductive ProcOut where
  | dropped
  | overrun
  | ok (msgs : List OutMsg)

/-- `process_data` (app.py lines 95-329) as a function from the counter
state, the message object and the payload bytes to the new counter
state and the sequence of yielded messages. -/
def process_data (dumps : MsgPayload → List Nat) (b64 : List Nat → String)
    (st : CounterState) (msg : Envelope) (payload : List Nat) :
    CounterState × ProcOut :=
  match dispatch msg.port payload.length (payloadBits payload) with
  | .invalid => (st, .dropped)
  | .overrun => (st, .overrun)
  | .ok f s =>
    match extract f s with
    | none => (st, .overrun)
    | some (config, data) =>
      let node_id := make_ttn_node_id msg
      let gen := generate_config st node_id msg.counter
      let st' := cUpdate st node_id msg.counter
      if gen then
        let cfgEnc := config.map fun o =>
          encode_cbor_obj o CONFIG_PACKET_KEYS_INVERTED CONFIG_PACKET_VALUES_INVERTED
        let m1 := produce_message dumps b64 msg (.cfg cfgEnc) CONFIG_PORT
        let m2 := produce_message dumps b64 m1 (.dat data) DATA_PORT
        (st', .ok [.cfgMsg m1 cfgEnc, .datMsg m2 data])
      else
        (st', .ok [.datMsg (produce_message dumps b64 msg (.dat data) DATA_PORT) data])

/-! ## Helper lemmas -/

theorem readUInt_eq {n : Nat} {s : List Bool} (h : n ≤ s.length) :
    readUInt n s = some (bitsToNat (s.take n), s.drop n) := by
  simp [readUInt, h]

theorem readSInt_eq {n : Nat} {s : List Bool} (h : n ≤ s.length) :
    readSInt n s = some (sIntOfBits n (s.take n), s.drop n) := by
  simp [readSInt, h]

theorem payloadBits_length (p : List Nat) : (payloadBits p).length = 8 * p.length := by
  induction p with
  | nil => simp [payloadBits]
  | cons b t ih =>
    rw [show payloadBits (b :: t) = byteToBits b ++ payloadBits t from rfl,
      List.length_append, ih, show (byteToBits b).length = 8 from rfl,
      List.length_cons]
    omega

theorem cLookup_cUpdate (st : CounterState) (k : String) (v : Nat) :
    cLookup (cUpdate st k v) k = some v := by
  induction st with
  | nil => simp [cUpdate, cLookup]
  | cons p rest ih =>
    obtain ⟨k', v'⟩ := p
    by_cases hk : k' == k
    · simp [cUpdate, hk, cLookup]
    · simp only [cUpdate, hk, Bool.false_eq_true, if_false]
      simpa [cLookup, hk] using ih

theorem readExtraGo_short {s : List Bool} (fuel : Nat) (h : s.length < 5) :
    readExtraGo fuel s = [] := by
  cases fuel <;> simp [readExtraGo, h]

theorem readExtraGo_congr :
    ∀ (f1 f2 : Nat) (s : List Bool), s.length ≤ f1 → s.length ≤ f2 →
      readExtraGo f1 s = readExtraGo f2 s := by
  intro f1
  induction f1 with
  | zero =>
    intro f2 s h1 h2
    have : s = [] := List.eq_nil_of_length_eq_zero (by omega)
    subst this
    rw [readExtraGo_short 0 (by simp), readExtraGo_short f2 (by simp)]
  | succ f ih =>
    intro f2 s h1 h2
    by_cases h5 : s.length < 5
    · rw [readExtraGo_short _ h5, readExtraGo_short _ h5]
    · obtain ⟨k, rfl⟩ : ∃ k, f2 = k + 1 := ⟨f2 - 1, by omega⟩
      by_cases hbits : (s.drop 5).length < bitsToNat (s.take 5) + 1
      · simp only [readExtraGo, if_neg h5, if_pos hbits]
      · simp only [readExtraGo, if_neg h5, if_neg hbits]
        congr 1
        exact ih k _ (by simp only [List.length_drop] at hbits ⊢; omega)
          (by simp only [List.length_drop] at hbits ⊢; omega)

/-- The loop stops silently at a trailing pad of fewer than 5 bits. -/
theorem readExtra_pad {s : List Bool} (h : s.length < 5) : readExtra s = [] :=
  readExtraGo_short _ h

/-- One iteration of the extra-value loop consumes a 5-bit size field
`e` followed by `bitsToNat e + 1` value bits `v`, emits `bitsToNat v`,
and continues on the remainder. -/
theorem readExtra_step (e v rest : List Bool) (he : e.length = 5)
    (hv : v.length = bitsToNat e + 1) :
    readExtra (e ++ (v ++ rest)) = bitsToNat v :: readExtra rest := by
  have hT : (e ++ (v ++ rest)).take 5 = e := by
    rw [← he]; exact List.take_left e (v ++ rest)
  have hD : (e ++ (v ++ rest)).drop 5 = v ++ rest := by
    rw [← he]; exact List.drop_left e (v ++ rest)
  have hTV : (v ++ rest).take (bitsToNat e + 1) = v := by
    rw [← hv]; exact List.take_left v rest
  have hDV : (v ++ rest).drop (bitsToNat e + 1) = rest := by
    rw [← hv]; exact List.drop_left v rest
  have hlen : (e ++ (v ++ rest)).length = (5 + bitsToNat e + rest.length) + 1 := by
    simp only [List.length_append, he, hv]
    omega
  unfold readExtra
  rw [hlen]
  simp only [readExtraGo]
  rw [hT, hD, hTV, hDV]
  rw [if_neg (by simp only [List.length_append, he, hv]; omega),
    if_neg (by simp only [List.length_append, hv]; omega)]
  congr 1
  exact readExtraGo_congr _ _ rest (by omega) le_rfl

theorem readFirmware_shape {f : Flags} {s : List Bool} {nc : Obj} {s' : List Bool}
    (h : readFirmware f s = some (nc, s')) :
    (f.have_firmware = true →
      ∃ fw, nc = node_config ++ [(.str "firmware_version", .int fw)]) ∧
    (f.have_firmware = false → nc = node_config) := by
  cases hf : f.have_firmware
  · simp [readFirmware, hf] at h
    exact ⟨by simp, fun _ => h.1.symm⟩
  · simp only [readFirmware, hf, if_true, Option.map_eq_some'] at h
    obtain ⟨⟨fw, s2⟩, _, h2⟩ := h
    refine ⟨fun _ => ⟨fw, ?_⟩, by simp⟩
    exact (Prod.mk.injEq _ _ _ _ ▸ h2).1.symm

theorem baseFields_shape {s : List Bool} {r : List Reading} {s' : List Bool}
    (h : baseFields s = some (r, s')) :
    ∃ p1 p2 t hu, r = [⟨0, .pair p1 p2⟩, ⟨1, .int t⟩, ⟨2, .int hu⟩] := by
  unfold baseFields at h
  split at h
  · exact absurd h (by simp)
  split at h
  · exact absurd h (by simp)
  split at h
  · exact absurd h (by simp)
  split at h
  · exact absurd h (by simp)
  simp only [Option.some.injEq, Prod.mk.injEq] at h
  exact ⟨_, _, _, _, h.1.symm⟩

theorem optSeg_shape {p : Bool} {cfgD : Obj} {cid n : Nat} {st st' : DecSt}
    (h : optSeg p cfgD cid n st = some st') :
    ∃ v, st'.config = st.config ++ (if p then [cfgD] else []) ∧
      st'.data = st.data ++ (if p then [⟨cid, RValue.int v⟩] else []) := by
  cases p
  · simp only [optSeg, Bool.false_eq_true, if_false, Option.some.injEq] at h
    exact ⟨0, by simp [← h]⟩
  · simp only [optSeg, if_true] at h
    split at h
    · exact absurd h (by simp)
    rename_i v s2 hr
    simp only [Option.some.injEq] at h
    exact ⟨(v : Int), by simp [← h]⟩

theorem pmSeg_shape {p : Bool} {st st' : DecSt} (h : pmSeg p st = some st') :
    ∃ v25 v10,
      st'.config = st.config ++ (if p then [pm25_config, pm10_config] else []) ∧
      st'.data = st.data ++ (if p then [⟨6, RValue.int v25⟩, ⟨7, RValue.int v10⟩] else []) := by
  cases p
  · simp only [pmSeg, Bool.false_eq_true, if_false, Option.some.injEq] at h
    exact ⟨0, 0, by simp [← h]⟩
  · simp only [pmSeg, if_true] at h
    split at h
    · exact absurd h (by simp)
    rename_i v25 s2 h1
    split at h
    · exact absurd h (by simp)
    rename_i v10 s3 h2
    simp only [Option.some.injEq] at h
    exact ⟨(v25 : Int), (v10 : Int), by simp [← h]⟩

theorem extraSeg_shape (p : Bool) (st : DecSt) :
    (extraSeg p st).config = st.config ++ (if p then [extra_config] else []) ∧
    (extraSeg p st).data =
      st.data ++ (if p then [⟨8, RValue.list (readExtra st.s)⟩] else []) := by
  cases p <;> simp [extraSeg]

/-- Full characterization of a successful field extraction: the
configuration and data lists are the fixed prefix followed by the
segments gated by the presence flags, in source order. -/
theorem extract_shape {f : Flags} {s : List Bool} {cfg : List Obj}
    {dat : List Reading} (h : extract f s = some (cfg, dat)) :
    ∃ nc p1 p2 t hu v3 v5 v6 v7 v4 vs,
      cfg = [nc, position_config, temperature_config, humidity_config]
        ++ (if f.have_supply then [vcc_config] else [])
        ++ (if f.have_lux then [luxDesc f] else [])
        ++ (if f.have_pm then [pm25_config, pm10_config] else [])
        ++ (if f.have_battery then [battery_config] else [])
        ++ (if f.have_extra then [extra_config] else []) ∧
      dat = [⟨0, .pair p1 p2⟩, ⟨1, .int t⟩, ⟨2, .int hu⟩]
        ++ (if f.have_supply then [⟨3, RValue.int v3⟩] else [])
        ++ (if f.have_lux then [⟨5, RValue.int v5⟩] else [])
        ++ (if f.have_pm then [⟨6, RValue.int v6⟩, ⟨7, RValue.int v7⟩] else [])
        ++ (if f.have_battery then [⟨4, RValue.int v4⟩] else [])
        ++ (if f.have_extra then [⟨8, RValue.list vs⟩] else []) ∧
      (f.have_firmware = true →
        ∃ fw, nc = node_config ++ [(.str "firmware_version", .int fw)]) ∧
      (f.have_firmware = false → nc = node_config) := by
  unfold extract at h
  split at h
  · exact absurd h (by simp)
  rename_i nc s1 h1
  split at h
  · exact absurd h (by simp)
  rename_i base s2 h2
  split at h
  · exact absurd h (by simp)
  rename_i st3 h3
  split at h
  · exact absurd h (by simp)
  rename_i st4 h4
  split at h
  · exact absurd h (by simp)
  rename_i st5 h5
  split at h
  · exact absurd h (by simp)
  rename_i st6 h6
  simp only [Option.some.injEq, Prod.mk.injEq] at h
  obtain ⟨hc, hd⟩ := h
  obtain ⟨p1, p2, t, hu, hbase⟩ := baseFields_shape h2
  obtain ⟨hfw1, hfw0⟩ := readFirmware_shape h1
  obtain ⟨v3, hc3, hd3⟩ := optSeg_shape h3
  obtain ⟨v5, hc4, hd4⟩ := optSeg_shape h4
  obtain ⟨v6, v7, hc5, hd5⟩ := pmSeg_shape h5
  obtain ⟨v4, hc6, hd6⟩ := optSeg_shape h6
  obtain ⟨hc7, hd7⟩ := extraSeg_shape f.have_extra st6
  refine ⟨nc, p1, p2, t, hu, v3, v5, v6, v7, v4, readExtra st6.s, ?_, ?_, hfw1, hfw0⟩
  · rw [← hc, hc7, hc6, hc5, hc4, hc3]
  · rw [← hd, hd7, hd6, hd5, hd4, hd3, hbase]

theorem readFirmware_total {f : Flags} {s : List Bool}
    (h : (if f.have_firmware then 8 else 0) ≤ s.length) :
    ∃ nc s', readFirmware f s = some (nc, s') ∧
      s'.length = s.length - (if f.have_firmware then 8 else 0) := by
  cases hf : f.have_firmware <;> rw [hf] at h
  · refine ⟨node_config, s, ?_, by simp⟩
    simp [readFirmware, hf]
  · have h8 : 8 ≤ s.length := by simpa using h
    refine ⟨node_config ++ [(.str "firmware_version", .int (bitsToNat (s.take 8)))],
      s.drop 8, ?_, by simp⟩
    simp [readFirmware, hf, readUInt_eq h8]

theorem baseFields_total {s : List Bool} (h : 72 ≤ s.length) :
    ∃ r s', baseFields s = some (r, s') ∧ s'.length = s.length - 72 := by
  unfold baseFields
  split
  · rename_i h1
    rw [readSInt_eq (by omega)] at h1
    exact absurd h1 (by simp)
  rename_i p1 s1 h1
  rw [readSInt_eq (by omega)] at h1
  obtain ⟨-, rfl⟩ : p1 = _ ∧ s1 = s.drop 24 := by
    simpa [Prod.ext_iff] using h1.symm
  split
  · rename_i h2
    rw [readSInt_eq (by simp only [List.length_drop]; omega)] at h2
    exact absurd h2 (by simp)
  rename_i p2 s2 h2
  rw [readSInt_eq (by simp only [List.length_drop]; omega)] at h2
  obtain ⟨-, rfl⟩ : p2 = _ ∧ s2 = (s.drop 24).drop 24 := by
    simpa [Prod.ext_iff] using h2.symm
  split
  · rename_i h3
    rw [readSInt_eq (by simp only [List.length_drop]; omega)] at h3
    exact absurd h3 (by simp)
  rename_i t s3 h3
  rw [readSInt_eq (by simp only [List.length_drop]; omega)] at h3
  obtain ⟨-, rfl⟩ : t = _ ∧ s3 = ((s.drop 24).drop 24).drop 12 := by
    simpa [Prod.ext_iff] using h3.symm
  split
  · rename_i h4
    rw [readSInt_eq (by simp only [List.length_drop]; omega)] at h4
    exact absurd h4 (by simp)
  rename_i hu s4 h4
  rw [readSInt_eq (by simp only [List.length_drop]; omega)] at h4
  obtain ⟨-, rfl⟩ : hu = _ ∧ s4 = (((s.drop 24).drop 24).drop 12).drop 12 := by
    simpa [Prod.ext_iff] using h4.symm
  exact ⟨_, _, rfl, by simp only [List.length_drop]; omega⟩

theorem optSeg_total {p : Bool} {cfgD : Obj} {cid n : Nat} {st : DecSt}
    (h : (if p then n else 0) ≤ st.s.length) :
    ∃ st', optSeg p cfgD cid n st = some st' ∧
      st'.s.length = st.s.length - (if p then n else 0) := by
  cases p
  · exact ⟨st, by simp [optSeg]⟩
  · rw [if_pos rfl] at h
    simp only [optSeg, if_true, if_pos rfl]
    rw [readUInt_eq h]
    exact ⟨_, rfl, by simp⟩

theorem pmSeg_total {p : Bool} {st : DecSt}
    (h : (if p then 32 else 0) ≤ st.s.length) :
    ∃ st', pmSeg p st = some st' ∧
      st'.s.length = st.s.length - (if p then 32 else 0) := by
  cases p
  · exact ⟨st, by simp [pmSeg]⟩
  · rw [if_pos rfl] at h
    simp only [pmSeg, if_true, if_pos rfl]
    split
    · rename_i h1
      rw [readUInt_eq (by omega)] at h1
      exact absurd h1 (by simp)
    rename_i v25 s1 h1
    rw [readUInt_eq (by omega)] at h1
    obtain ⟨-, rfl⟩ : v25 = _ ∧ s1 = st.s.drop 16 := by
      simpa [Prod.ext_iff] using h1.symm
    split
    · rename_i h2
      rw [readUInt_eq (by simp only [List.length_drop]; omega)] at h2
      exact absurd h2 (by simp)
    rename_i v10 s2 h2
    rw [readUInt_eq (by simp only [List.length_drop]; omega)] at h2
    obtain ⟨-, rfl⟩ : v10 = _ ∧ s2 = (st.s.drop 16).drop 16 := by
      simpa [Prod.ext_iff] using h2.symm
    exact ⟨_, rfl, by simp only [DecSt.mk.injEq, List.length_drop]; omega⟩

/-- Bits consumed by the fixed and flag-gated fields (everything except
the self-delimiting extra-value tail). -/
def fixedBits (f : Flags) : Nat :=
  (if f.have_firmware then 8 else 0) + 72 + (if f.have_supply then 8 else 0)
    + (if f.have_lux then 16 else 0) + (if f.have_pm then 32 else 0)
    + (if f.have_battery then 8 else 0)

/-- Extraction succeeds whenever the stream holds the bits the flags
announce. -/
theorem extract_total {f : Flags} {s : List Bool} (h : fixedBits f ≤ s.length) :
    ∃ r, extract f s = some r := by
  unfold fixedBits at h
  obtain ⟨nc, s1, e1, l1⟩ := @readFirmware_total f s (by omega)
  obtain ⟨base, s2, e2, l2⟩ := @baseFields_total s1 (by omega)
  obtain ⟨st3, e3, l3⟩ := @optSeg_total f.have_supply vcc_config 3 8
    ⟨[nc, position_config, temperature_config, humidity_config], base, s2⟩
    (by dsimp only; omega)
  dsimp only at l3
  obtain ⟨st4, e4, l4⟩ := @optSeg_total f.have_lux (luxDesc f) 5 16 st3 (by omega)
  obtain ⟨st5, e5, l5⟩ := @pmSeg_total f.have_pm st4 (by omega)
  obtain ⟨st6, e6, l6⟩ := @optSeg_total f.have_battery battery_config 4 8 st5
    (by omega)
  refine ⟨((extraSeg f.have_extra st6).config, (extraSeg f.have_extra st6).data), ?_⟩
  unfold extract
  simp only [e1, e2, e3, e4, e5, e6]

theorem mem_ite_nil {α : Type} {P : Prop} [Decidable P] {l : List α} {a : α}
    (h : a ∈ if P then l else []) : P ∧ a ∈ l := by
  split at h
  · exact ⟨by assumption, h⟩
  · simp at h

/-- In a successful extraction with the lux divider untouched (every
variant except port 13), the only configuration descriptor whose
`channel_id` is 5 is `lux_config` itself, present exactly when the lux
flag is set. -/
theorem extract_channel5_unique {f : Flags} {s : List Bool} {cfg : List Obj}
    {dat : List Reading} (hex : extract f s = some (cfg, dat))
    (hf4 : f.lux_div4 = false) :
    (f.have_lux = true → lux_config ∈ cfg) ∧
    ∀ d ∈ cfg, objLookup d (.str "channel_id") = some (.int 5) →
      d = lux_config := by
  obtain ⟨nc, p1, p2, t, hu, v3, v5, v6, v7, v4, vs, hcfg, hdat, hfw1, hfw0⟩ :=
    extract_shape hex
  have hld : luxDesc f = lux_config := by rw [luxDesc, hf4]; simp
  subst hcfg
  rw [hld]
  have hnc : objLookup nc (.str "channel_id") = none := by
    cases hfw : f.have_firmware
    · rw [hfw0 hfw]; rfl
    · obtain ⟨fw, hncv⟩ := hfw1 hfw
      rw [hncv]; rfl
  constructor
  · intro hl
    simp [hl]
  · intro d hd hd5
    simp only [List.mem_append, List.mem_cons, List.not_mem_nil, or_false] at hd
    rcases hd with (((((rfl | rfl | rfl | rfl) | hdm) | hdm) | hdm) | hdm) | hdm
    · rw [hnc] at hd5; cases hd5
    · exact absurd hd5 (by decide)
    · exact absurd hd5 (by decide)
    · exact absurd hd5 (by decide)
    · obtain ⟨-, hdm⟩ := mem_ite_nil hdm
      simp only [List.mem_singleton] at hdm
      subst hdm
      exact absurd hd5 (by decide)
    · obtain ⟨-, hdm⟩ := mem_ite_nil hdm
      simpa using hdm
    · obtain ⟨-, hdm⟩ := mem_ite_nil hdm
      simp only [List.mem_cons, List.not_mem_nil, or_false] at hdm
      rcases hdm with rfl | rfl
      · exact absurd hd5 (by decide)
      · exact absurd hd5 (by decide)
    · obtain ⟨-, hdm⟩ := mem_ite_nil hdm
      simp only [List.mem_singleton] at hdm
      subst hdm
      exact absurd hd5 (by decide)
    · obtain ⟨-, hdm⟩ := mem_ite_nil hdm
      simp only [List.mem_singleton] at hdm
      subst hdm
      exact absurd hd5 (by decide)

/-! ## Claims -/

/-- C2: for every node identity and frame counter, the
configuration-regeneration decision is true iff no counter was previously
recorded for that node or the new counter is strictly less than the
previously recorded one (so an equal or greater counter never triggers
regeneration), and the recorded counter for the node is replaced by the
new counter by the unconditional update, regardless of the decision. -/
theorem c2_counter_policy (st : CounterState) (node : String) (c : Nat) :
    (generate_config st node c = true ↔
      cLookup st node = none ∨ ∃ prev, cLookup st node = some prev ∧ c < prev) ∧
    cLookup (cUpdate st node c) node = some c := by
  constructor
  · cases h : cLookup st node with
    | none => simp [generate_config, h]
    | some prev => simp [generate_config, h]
  · exact cLookup_cUpdate st node c

/-- C3: an envelope on a port other than 10, 11, 12, 13, or on port
10/11/12 with a payload length outside the listed set, is dropped:
no configuration or data message is emitted and the node-to-counter
state is left unchanged. -/
theorem c3_invalid_dropped (dumps : MsgPayload → List Nat)
    (b64 : List Nat → String) (st : CounterState) (msg : Envelope)
    (payload : List Nat)
    (h : (msg.port ≠ 10 ∧ msg.port ≠ 11 ∧ msg.port ≠ 12 ∧ msg.port ≠ 13) ∨
      (msg.port = 10 ∧ payload.length ≠ 9 ∧ payload.length ≠ 10 ∧
        payload.length ≠ 11) ∨
      (msg.port = 11 ∧ payload.length ≠ 11 ∧ payload.length ≠ 12 ∧
        payload.length ≠ 15 ∧ payload.length ≠ 16) ∨
      (msg.port = 12 ∧ payload.length ≠ 13 ∧ payload.length ≠ 14 ∧
        payload.length ≠ 17 ∧ payload.length ≠ 18)) :
    process_data dumps b64 st msg payload = (st, ProcOut.dropped) := by
  have hdisp : dispatch msg.port payload.length (payloadBits payload) = .invalid := by
    rcases h with ⟨h10, h11, h12, h13⟩ | ⟨hp, h1, h2, h3⟩ |
      ⟨hp, h1, h2, h3, h4⟩ | ⟨hp, h1, h2, h3, h4⟩
    · simp [dispatch, h10, h11, h12, h13]
    · simp [dispatch, hp, h1, h2, h3]
    · simp [dispatch, hp, h1, h2, h3, h4]
    · simp [dispatch, hp, h1, h2, h3, h4]
  unfold process_data
  rw [hdisp]

/-- Witness for C3 at a concrete unknown-port envelope. -/
theorem c3_witness :
    process_data (fun _ => []) (fun _ => "") [] ⟨"a", "b", 0, 9, "", []⟩ [] =
      ([], ProcOut.dropped) :=
  c3_invalid_dropped _ _ _ _ _
    (Or.inl ⟨by decide, by decide, by decide, by decide⟩)

/-- C1: for every inbound packet that decodes successfully (the
processing outcome is `ok`), the yielded messages are exactly one data
message, preceded by at most one configuration message: either a single
data message, or one configuration message followed by one data message. -/
theorem c1_message_discipline (dumps : MsgPayload → List Nat)
    (b64 : List Nat → String) (st st' : CounterState) (msg : Envelope)
    (payload : List Nat) (msgs : List OutMsg)
    (h : process_data dumps b64 st msg payload = (st', ProcOut.ok msgs)) :
    (∃ e d, msgs = [OutMsg.datMsg e d] ∧ e.port = DATA_PORT) ∨
    (∃ e1 c e2 d, msgs = [OutMsg.cfgMsg e1 c, OutMsg.datMsg e2 d] ∧
      e1.port = CONFIG_PORT ∧ e2.port = DATA_PORT) := by
  unfold process_data at h
  split at h
  · exact absurd h (by simp)
  · exact absurd h (by simp)
  rename_i f s hd
  split at h
  · exact absurd h (by simp)
  rename_i cfg dat he
  cases hg : generate_config st (make_ttn_node_id msg) msg.counter <;>
    simp only [hg, Bool.false_eq_true, if_false, if_true,
      Prod.mk.injEq, ProcOut.ok.injEq] at h
  · exact Or.inl ⟨_, _, h.2.symm, rfl⟩
  · exact Or.inr ⟨_, _, _, _, h.2.symm, rfl, rfl⟩

/-- Witness for C1: the concrete first-sighting port-10 run yields one
configuration message followed by one data message. -/
theorem c1_witness :
    (∃ e d,
        ([OutMsg.cfgMsg ⟨"app", "dev", 42, 1, "", []⟩
            [[(.num 5, .int 1)],
             [(.num 5, .int 2), (.num 1, .int 0), (.num 2, .int 6),
              (.num 3, .int 6), (.num 7, .int 32768)],
             [(.num 5, .int 2), (.num 1, .int 1), (.num 2, .int 1),
              (.num 3, .str "degrees_celsius"), (.num 7, .int 16)],
             [(.num 5, .int 2), (.num 1, .int 2), (.num 2, .int 2),
              (.num 3, .int 2), (.num 7, .int 16)]],
          OutMsg.datMsg ⟨"app", "dev", 42, 2, "", []⟩
            [⟨0, .pair 1 (-1)⟩, ⟨1, .int 100⟩, ⟨2, .int 400⟩]] : List OutMsg) =
          [OutMsg.datMsg e d] ∧ e.port = DATA_PORT) ∨
    (∃ e1 c e2 d,
        ([OutMsg.cfgMsg ⟨"app", "dev", 42, 1, "", []⟩
            [[(.num 5, .int 1)],
             [(.num 5, .int 2), (.num 1, .int 0), (.num 2, .int 6),
              (.num 3, .int 6), (.num 7, .int 32768)],
             [(.num 5, .int 2), (.num 1, .int 1), (.num 2, .int 1),
              (.num 3, .str "degrees_celsius"), (.num 7, .int 16)],
             [(.num 5, .int 2), (.num 1, .int 2), (.num 2, .int 2),
              (.num 3, .int 2), (.num 7, .int 16)]],
          OutMsg.datMsg ⟨"app", "dev", 42, 2, "", []⟩
            [⟨0, .pair 1 (-1)⟩, ⟨1, .int 100⟩, ⟨2, .int 400⟩]] : List OutMsg) =
          [OutMsg.cfgMsg e1 c, OutMsg.datMsg e2 d] ∧
        e1.port = CONFIG_PORT ∧ e2.port = DATA_PORT) :=
  c1_message_discipline (fun _ => []) (fun _ => "") [] [("ttn/app/dev", 42)]
    ⟨"app", "dev", 42, 10, "raw", []⟩ [0, 0, 1, 255, 255, 255, 6, 65, 144] _ rfl

/-- C7: the port-10, 9-byte payload with position bytes
`0x000001, 0xFFFFFF`, temperature raw 100 and humidity raw 400 decodes
to exactly the readings `[(0, [1, -1]), (1, 100), (2, 400)]` with no
supply or battery channels, and on first sighting of its node exactly
one configuration envelope is emitted followed by one data envelope. -/
theorem c7_end_to_end (dumps : MsgPayload → List Nat) (b64 : List Nat → String) :
    ∃ cfgP datP e1 e2,
      process_data dumps b64 [] ⟨"app", "dev", 42, 10, "raw", []⟩
          [0, 0, 1, 255, 255, 255, 6, 65, 144] =
        ([("ttn/app/dev", 42)],
          ProcOut.ok [OutMsg.cfgMsg e1 cfgP, OutMsg.datMsg e2 datP]) ∧
      datP = [⟨0, .pair 1 (-1)⟩, ⟨1, .int 100⟩, ⟨2, .int 400⟩] ∧
      e1.port = CONFIG_PORT ∧ e2.port = DATA_PORT := by
  exact ⟨_, _, _, _, rfl, rfl, rfl, rfl⟩

/-- C4: on port 13 the leading bits of the stream are read MSB-first in
the fixed order lux-flag, pm-flag, battery-flag, 4 unused bits,
extra-flag; each flag determines the presence of the corresponding
optional readings (ambient-light, the particulate-matter pair, battery,
extra values) and of the ambient-light descriptor; and the ambient-light
descriptor for this variant carries divider 4. -/
theorem c4_port13_flags :
    (∀ (b0 b1 b2 u0 u1 u2 u3 b7 : Bool) (rest : List Bool) (len : Nat),
      dispatch 13 len (b0 :: b1 :: b2 :: u0 :: u1 :: u2 :: u3 :: b7 :: rest) =
        DispatchR.ok ⟨true, b2, true, b0, b1, b7, true⟩ rest) ∧
    (∀ (f : Flags) (s : List Bool) (cfg : List Obj) (dat : List Reading),
      extract f s = some (cfg, dat) →
      ((∃ r ∈ dat, r.channel_id = 5) ↔ f.have_lux = true) ∧
      ((∃ r ∈ dat, r.channel_id = 6) ↔ f.have_pm = true) ∧
      ((∃ r ∈ dat, r.channel_id = 7) ↔ f.have_pm = true) ∧
      ((∃ r ∈ dat, r.channel_id = 4) ↔ f.have_battery = true) ∧
      ((∃ r ∈ dat, r.channel_id = 8) ↔ f.have_extra = true) ∧
      (f.have_lux = true → luxDesc f ∈ cfg)) ∧
    (∀ f : Flags, f.lux_div4 = true →
      objLookup (luxDesc f) (CKey.str "divider") = some (CVal.int 4)) := by
  refine ⟨?_, ?_, ?_⟩
  · intro b0 b1 b2 u0 u1 u2 u3 b7 rest len
    simp [dispatch, readFlags13, readBool, readUInt]
  · intro f s cfg dat h
    obtain ⟨nc, p1, p2, t, hu, v3, v5, v6, v7, v4, vs, hcfg, hdat, hfw1, hfw0⟩ :=
      extract_shape h
    subst hcfg
    subst hdat
    cases hs : f.have_supply <;> cases hl : f.have_lux <;>
      cases hp : f.have_pm <;> cases hb : f.have_battery <;>
      cases hx : f.have_extra <;> simp_all
  · intro f hf
    rw [luxDesc, if_pos hf]
    decide

/-- Witness for C4: the flag byte `0x01` on port 13 selects exactly the
extra-values segment, the concrete 12-byte run carries a channel-8
reading and no channel-5 reading, and the port-13 lux descriptor maps
`divider` to 4. -/
theorem c4_witness :
    (dispatch 13 12 (false :: false :: false :: false :: false :: false ::
        false :: true :: [true, true]) =
      DispatchR.ok ⟨true, false, true, false, false, true, true⟩ [true, true]) ∧
    ((∃ r ∈ ([⟨0, RValue.pair 1 (-1)⟩, ⟨1, RValue.int 100⟩,
        ⟨2, RValue.int 400⟩, ⟨3, RValue.int 200⟩,
        ⟨8, RValue.list []⟩] : List Reading), r.channel_id = 8) ↔
      (⟨true, false, true, false, false, true, true⟩ : Flags).have_extra = true) ∧
    objLookup (luxDesc ⟨false, false, false, false, false, false, true⟩)
      (CKey.str "divider") = some (CVal.int 4) :=
  ⟨c4_port13_flags.1 false false false false false false false true [true, true] 12,
   (c4_port13_flags.2.1 ⟨true, false, true, false, false, true, true⟩
      (payloadBits [7, 0, 0, 1, 255, 255, 255, 6, 65, 144, 200])
      [[(.str "item_type", .str "node"), (.str "firmware_version", .int 7)],
       position_config, temperature_config, humidity_config, vcc_config,
       extra_config]
      [⟨0, .pair 1 (-1)⟩, ⟨1, .int 100⟩, ⟨2, .int 400⟩, ⟨3, .int 200⟩,
       ⟨8, .list []⟩]
      (by rfl)).2.2.2.2.1,
   c4_port13_flags.2.2 ⟨false, false, false, false, false, false, true⟩ rfl⟩

/-- C8: the emitted outbound envelope equals the inbound envelope with its
port replaced by the target port and its payload_raw replaced by the
base64 encoding of the CBOR serialization of the payload; every other
field (app_id, dev_id, counter and any others present) is unchanged. -/
theorem c8_produce_message (dumps : MsgPayload → List Nat)
    (b64 : List Nat → String) (msg : Envelope) (payload : MsgPayload)
    (port : Nat) :
    produce_message dumps b64 msg payload port =
      { app_id := msg.app_id, dev_id := msg.dev_id, counter := msg.counter,
        port := port, payload_raw := b64 (dumps payload),
        others := msg.others } := rfl

/-- C9: the compactor never replaces the temperature descriptor's unit
value with a catalog code: the descriptor spells it `degrees_celsius`
while the value catalog spells it `degrees_celcius`, so compaction maps
the key `unit` to code 3 but leaves the value as the original string. -/
theorem c9_unit_spelling_survives :
    objLookup temperature_config (.str "unit") = some (.str "degrees_celsius") ∧
    valuesLookup CONFIG_PACKET_VALUES_INVERTED "unit" "degrees_celcius" = some 1 ∧
    valuesLookup CONFIG_PACKET_VALUES_INVERTED "unit" "degrees_celsius" = none ∧
    encode_cbor_obj temperature_config CONFIG_PACKET_KEYS_INVERTED
        CONFIG_PACKET_VALUES_INVERTED =
      [(.num 5, .int 2), (.num 1, .int 1), (.num 2, .int 1),
       (.num 3, .str "degrees_celsius"), (.num 7, .int 16)] := by decide

/-- C5 counterexample: for the valid 13-byte all-zero port-12 packet,
the channel-5 (ambient-light) descriptor in the decoded configuration is
`lux_config`, which has no `divider` entry at all — it does not carry
divider 1. -/
theorem c5_counterexample :
    (extract ⟨true, false, true, true, false, false, false⟩
        (payloadBits (List.replicate 13 0))).map
      (fun r => r.1.filter
        (fun d => objLookup d (.str "channel_id") == some (.int 5))) =
      some [lux_config] ∧
    objLookup lux_config (.str "divider") = none ∧
    ¬ objLookup lux_config (.str "divider") = some (.int 1) := by decide

/-- C5 (amended): for every valid port-12 packet the ambient-light
descriptor for channel 5 is `lux_config`, which carries no `divider`
entry — the divider is left implicit rather than written as 1 (only the
port-13 variant writes a divider, namely 4). -/
theorem c5_port12_lux_no_divider (payload : List Nat)
    (hlen : payload.length = 13 ∨ payload.length = 14 ∨
      payload.length = 17 ∨ payload.length = 18) :
    ∃ f cfg dat,
      dispatch 12 payload.length (payloadBits payload) =
        DispatchR.ok f (payloadBits payload) ∧
      f.lux_div4 = false ∧ f.have_lux = true ∧
      extract f (payloadBits payload) = some (cfg, dat) ∧
      lux_config ∈ cfg ∧
      (∀ d ∈ cfg, objLookup d (.str "channel_id") = some (.int 5) →
        d = lux_config) ∧
      objLookup lux_config (.str "divider") = none := by
  have hbits := payloadBits_length payload
  rcases hlen with h | h | h | h
  · refine ⟨⟨true, false, true, true, false, false, false⟩, ?_⟩
    obtain ⟨⟨cfg, dat⟩, hex⟩ := @extract_total ⟨true, false, true, true, false, false, false⟩
      (payloadBits payload) (by rw [hbits, h]; decide)
    have hu := extract_channel5_unique hex rfl
    exact ⟨cfg, dat, by rw [h]; rfl, rfl, rfl, hex, hu.1 rfl, hu.2, rfl⟩
  · refine ⟨⟨true, true, true, true, false, false, false⟩, ?_⟩
    obtain ⟨⟨cfg, dat⟩, hex⟩ := @extract_total ⟨true, true, true, true, false, false, false⟩
      (payloadBits payload) (by rw [hbits, h]; decide)
    have hu := extract_channel5_unique hex rfl
    exact ⟨cfg, dat, by rw [h]; rfl, rfl, rfl, hex, hu.1 rfl, hu.2, rfl⟩
  · refine ⟨⟨true, false, true, true, true, false, false⟩, ?_⟩
    obtain ⟨⟨cfg, dat⟩, hex⟩ := @extract_total ⟨true, false, true, true, true, false, false⟩
      (payloadBits payload) (by rw [hbits, h]; decide)
    have hu := extract_channel5_unique hex rfl
    exact ⟨cfg, dat, by rw [h]; rfl, rfl, rfl, hex, hu.1 rfl, hu.2, rfl⟩
  · refine ⟨⟨true, true, true, true, true, false, false⟩, ?_⟩
    obtain ⟨⟨cfg, dat⟩, hex⟩ := @extract_total ⟨true, true, true, true, true, false, false⟩
      (payloadBits payload) (by rw [hbits, h]; decide)
    have hu := extract_channel5_unique hex rfl
    exact ⟨cfg, dat, by rw [h]; rfl, rfl, rfl, hex, hu.1 rfl, hu.2, rfl⟩

/-- Witness for the amended C5 at the 13-byte all-zero payload. -/
theorem c5_witness :
    ∃ f cfg dat,
      dispatch 12 (List.replicate 13 (0 : Nat)).length
          (payloadBits (List.replicate 13 0)) =
        DispatchR.ok f (payloadBits (List.replicate 13 0)) ∧
      f.lux_div4 = false ∧ f.have_lux = true ∧
      extract f (payloadBits (List.replicate 13 0)) = some (cfg, dat) ∧
      lux_config ∈ cfg ∧
      (∀ d ∈ cfg, objLookup d (.str "channel_id") = some (.int 5) →
        d = lux_config) ∧
      objLookup lux_config (.str "divider") = none :=
  c5_port12_lux_no_divider (List.replicate 13 0) (Or.inl (by decide))

/-- C6 counterexample: the bit tail laid out literally as the claim
reads — a 5-bit size field 3, a 5-bit value, a 5-bit size field 10, an
11-bit value, then 2 all-ones pad bits — decodes to three extra values,
not two: the decoder gives a size-3 field a 4-bit value (size + 1 bits),
so it desynchronizes on this layout. -/
theorem c6_counterexample :
    readExtra ([false, false, false, true, true] ++
      [false, false, false, false, false] ++ [false, true, false, true, false] ++
      List.replicate 11 false ++ [true, true]) = [0, 0, 0] := by decide

/-- C6 (amended): the extra-value loop stops without error on a tail of
fewer than 5 bits; each iteration reads a 5-bit size field `e` and then
`bitsToNat e + 1` value bits (so a size-3 field is followed by a 4-bit
value, not a 5-bit one); in particular a tail encoding size 3 with its
4-bit value, then size 10 with its 11-bit value, followed by fewer than
5 pad bits, decodes to exactly those two values and stops at the pad. -/
theorem c6_extra_pairs :
    (∀ s : List Bool, s.length < 5 → readExtra s = []) ∧
    (∀ (e v rest : List Bool), e.length = 5 → v.length = bitsToNat e + 1 →
      readExtra (e ++ (v ++ rest)) = bitsToNat v :: readExtra rest) ∧
    (∀ (v1 v2 pad : List Bool), v1.length = 4 → v2.length = 11 →
      pad.length < 5 →
      readExtra ([false, false, false, true, true] ++ (v1 ++
        ([false, true, false, true, false] ++ (v2 ++ pad)))) =
        [bitsToNat v1, bitsToNat v2]) := by
  refine ⟨fun s h => readExtra_pad h, readExtra_step, ?_⟩
  intro v1 v2 pad h1 h2 h5
  rw [readExtra_step _ _ _ (by decide) (by rw [h1]; decide),
    readExtra_step _ _ _ (by decide) (by rw [h2]; decide),
    readExtra_pad h5]

/-- Witness for the amended C6 on a concrete two-pair tail with a 3-bit
all-ones pad. -/
theorem c6_witness :
    readExtra ([false, false, false, true, true] ++ ([true, false, false, true] ++
      ([false, true, false, true, false] ++
        ([true, false, false, false, false, false, false, false, false, false,
          true] ++ [true, true, true])))) =
      [bitsToNat [true, false, false, true],
       bitsToNat [true, false, false, false, false, false, false, false, false,
         false, true]] :=
  c6_extra_pairs.2.2 [true, false, false, true]
    [true, false, false, false, false, false, false, false, false, false, true]
    [true, true, true] rfl rfl (by decide)

/-- C10: whenever the extra flag is set and extraction succeeds, the
channel-8 descriptor and a channel-8 reading are appended — even when
the remaining stream decodes to no extra values, in which case the
reading's value is the empty list rather than the reading being omitted
(shown on a concrete 12-byte port-13 packet whose extra tail is empty
after the fixed fields). -/
theorem c10_extra_always_appended :
    (∀ (f : Flags) (s : List Bool) (cfg : List Obj) (dat : List Reading),
      f.have_extra = true → extract f s = some (cfg, dat) →
      extra_config ∈ cfg ∧ ∃ vs, Reading.mk 8 (RValue.list vs) ∈ dat) ∧
    extract ⟨true, false, true, false, false, true, true⟩
        (payloadBits [7, 0, 0, 1, 255, 255, 255, 6, 65, 144, 200]) =
      some ([[(.str "item_type", .str "node"),
          (.str "firmware_version", .int 7)],
        position_config, temperature_config, humidity_config, vcc_config,
        extra_config],
       [⟨0, .pair 1 (-1)⟩, ⟨1, .int 100⟩, ⟨2, .int 400⟩, ⟨3, .int 200⟩,
        ⟨8, .list []⟩]) := by
  constructor
  · intro f s cfg dat hx h
    obtain ⟨nc, p1, p2, t, hu, v3, v5, v6, v7, v4, vs, hcfg, hdat, -, -⟩ :=
      extract_shape h
    subst hcfg
    subst hdat
    refine ⟨?_, vs, ?_⟩ <;> simp [hx]
  · rfl

/-- Witness for C10 at the concrete port-13 packet with an empty extra
tail. -/
theorem c10_witness :
    extra_config ∈ [[(CKey.str "item_type", CVal.str "node"),
        (CKey.str "firmware_version", CVal.int 7)],
      position_config, temperature_config, humidity_config, vcc_config,
      extra_config] ∧
    ∃ vs, Reading.mk 8 (RValue.list vs) ∈
      ([⟨0, RValue.pair 1 (-1)⟩, ⟨1, RValue.int 100⟩, ⟨2, RValue.int 400⟩,
        ⟨3, RValue.int 200⟩, ⟨8, RValue.list []⟩] : List Reading) :=
  c10_extra_always_appended.1 ⟨true, false, true, false, false, true, true⟩
    (payloadBits [7, 0, 0, 1, 255, 255, 255, 6, 65, 144, 200]) _ _ rfl
    c10_extra_always_appended.2

end TTNConv
